import Mathlib

/-!
Verification of the attendance/shift workflow engine (bot.py of
npe-shift-bot): a shallow embedding of the database state and of the
handler logic, with theorems checking the specification's claims.

Conventions of the embedding:
* SQLite tables become Lean lists of records; `INSERT` appends,
  `UPDATE ... WHERE` maps over the list, `SELECT ... ORDER BY id DESC
  LIMIT 1` picks the record of maximal id among the matches.
* Timestamps: a wall-clock instant is a calendar day (ISO string, as the
  code stores it) together with a second-of-day (`Nat`).  The code only
  ever subtracts instants that share the calendar day (`datetime.combine
  (now.date(), ...)`), so the difference in seconds is the difference of
  the second-of-day values, carried in `Int`.
* Telegram sends are modelled by returning the list of recipient chat
  ids; a failed send changes nothing, so delivery is irrelevant here.
-/

/-- Split a list of characters on a separator character, mirroring Python's
`str.split(sep)` for a single-character separator. -/
def splitCharsOn (sep : Char) : List Char → List (List Char)
  | [] => [[]]
  | x :: xs =>
    let r := splitCharsOn sep xs
    if x = sep then [] :: r
    else
      match r with
      | [] => [[x]]
      | y :: ys => (x :: y) :: ys

/-- Decimal value of a digit string, mirroring Python's `int(...)` on a
string of ASCII digits. -/
def natOfChars (l : List Char) : Nat :=
  l.foldl (fun a c => a * 10 + (c.toNat - 48)) 0

/-- `parse_hhmm(hhmm)`: `h, m = hhmm.split(":"); return dtime(int(h), int(m))`;
returned as the (hour, minute) pair. -/
def parse_hhmm (s : String) : Nat × Nat :=
  match splitCharsOn ':' s.data with
  | [h, m] => (natOfChars h, natOfChars m)
  | _ => (0, 0)

/-- `REAL_MANAGERS = {97965212, 1035761242}` -/
def REAL_MANAGERS : List Nat := [97965212, 1035761242]

/-- `SUPERUSER = {6017492841}` -/
def SUPERUSER : List Nat := [6017492841]

/-- `ADMIN_USERS = REAL_MANAGERS | SUPERUSER` -/
def ADMIN_USERS : List Nat := REAL_MANAGERS ++ SUPERUSER

/-- One row of the fixed `SHIFTS` table: `(id, name, start, end)`. -/
structure Shift where
  sid : Nat
  name : String
  startHHMM : String
  endHHMM : String
deriving DecidableEq

/-- The fixed shift catalog `SHIFTS`. -/
def SHIFTS : List Shift :=
  [⟨1, "شیفت 1", "08:00", "16:00"⟩,
   ⟨2, "شیفت 2", "16:00", "24:00"⟩,
   ⟨3, "شیفت 3", "00:00", "08:00"⟩]

/-- `get_shift_by_id(shift_id)`: linear scan of `SHIFTS`. -/
def get_shift_by_id (shift_id : Nat) : Option Shift :=
  SHIFTS.find? (fun s => s.sid == shift_id)

/-- A row of the `employees` table (`created_at` omitted: never read). -/
structure Employee where
  userId : Nat
  username : String
  fullName : String
  status : String
deriving DecidableEq

/-- A row of the `attendance` table.  `checkInTime`/`checkOutTime` are the
second-of-day of the stored ISO timestamp, `none` for SQL NULL (the code
stores non-empty strings, so Python truthiness is `Option.isSome`). -/
structure AttRecord where
  id : Nat
  date : String
  userId : Nat
  fullName : String
  shiftId : Nat
  checkInTime : Option Nat
  checkOutTime : Option Nat
  delayMinutes : Int
deriving DecidableEq

/-- A row of the `leave_requests` table (`created_at` omitted: only used
for ordering the report, not for membership). -/
structure LeaveRequest where
  id : Nat
  date : String
  userId : Nat
  fullName : String
  reason : String
  status : String
deriving DecidableEq

/-- The persistent database state.  `employeeShifts` is the
`employee_shifts` table: `user_id` is its PRIMARY KEY, so it is a list of
`(user_id, shift_id)` pairs; note it has NO date column.  `nextAttId` /
`nextLeaveId` model the AUTOINCREMENT counters. -/
structure BotState where
  employees : List Employee
  employeeShifts : List (Nat × Nat)
  attendance : List AttRecord
  leaveRequests : List LeaveRequest
  nextAttId : Nat
  nextLeaveId : Nat
deriving DecidableEq

/-- `get_employee_status(user_id)` -/
def get_employee_status (es : List Employee) (user_id : Nat) : Option String :=
  (es.find? (fun e => e.userId == user_id)).map (·.status)

/-- `get_employee_full_name(user_id)` -/
def get_employee_full_name (es : List Employee) (user_id : Nat) : Option String :=
  (es.find? (fun e => e.userId == user_id)).map (·.fullName)

/-- Python's `a or b` for an optional string `a` (SQL NULL and the empty
string are both falsy). -/
def pyOr (a : Option String) (b : String) : String :=
  match a with
  | some s => if s = "" then b else s
  | none => b

/-- `upsert_employee`: INSERT .. ON CONFLICT(user_id) DO UPDATE SET
username, full_name, status. -/
def upsert_employee (es : List Employee) (user_id : Nat)
    (username full_name status : String) : List Employee :=
  if es.any (fun e => e.userId == user_id) then
    es.map (fun e =>
      if e.userId = user_id then
        { e with username := username, fullName := full_name, status := status }
      else e)
  else
    es ++ [⟨user_id, username, full_name, status⟩]

/-- `set_employee_status`: UPDATE employees SET status=? WHERE user_id=?
(matches zero rows silently when the employee does not exist). -/
def set_employee_status (es : List Employee) (user_id : Nat) (status : String) :
    List Employee :=
  es.map (fun e => if e.userId = user_id then { e with status := status } else e)

/-- `set_employee_shift`: INSERT INTO employee_shifts .. ON
CONFLICT(user_id) DO UPDATE SET shift_id.  Keyed by `user_id` alone. -/
def set_employee_shift (shifts : List (Nat × Nat)) (user_id shift_id : Nat) :
    List (Nat × Nat) :=
  if shifts.any (fun p => p.1 == user_id) then
    shifts.map (fun p => if p.1 = user_id then (user_id, shift_id) else p)
  else
    shifts ++ [(user_id, shift_id)]

/-- `get_employee_shift`: SELECT shift_id FROM employee_shifts WHERE
user_id=?.  Takes no date. -/
def get_employee_shift (shifts : List (Nat × Nat)) (user_id : Nat) : Option Nat :=
  (shifts.find? (fun p => p.1 == user_id)).map (·.2)

/-- The spec's interface for §4.2 passes a date; the code discards it
(`set_employee_shift` has no date parameter or column). -/
def assignShift (shifts : List (Nat × Nat)) (user_id : Nat) (_date : String)
    (shift_id : Nat) : List (Nat × Nat) :=
  set_employee_shift shifts user_id shift_id

/-- The spec's dated read of §4.2; the code discards the date. -/
def getAssignedShift (shifts : List (Nat × Nat)) (user_id : Nat) (_date : String) :
    Option Nat :=
  get_employee_shift shifts user_id

/-- Modelled from the spec: "**Assignment**: (employeeId, date) → shiftId.
Unique per (employeeId, date)" — a store actually keyed by the pair, for
comparison with the code's date-less store. -/
def assignShiftSpec (a : List (Nat × String × Nat)) (user_id : Nat)
    (date : String) (shift_id : Nat) : List (Nat × String × Nat) :=
  if a.any (fun p => p.1 == user_id && p.2.1 == date) then
    a.map (fun p => if p.1 = user_id ∧ p.2.1 = date then (user_id, date, shift_id) else p)
  else
    a ++ [(user_id, date, shift_id)]

/-- Modelled from the spec: dated lookup over the per-(employeeId, date)
store. -/
def getAssignedShiftSpec (a : List (Nat × String × Nat)) (user_id : Nat)
    (date : String) : Option Nat :=
  (a.find? (fun p => p.1 == user_id && p.2.1 == date)).map (·.2.2)

/-- `check_employee_access`: admins always pass; otherwise the stored
status must be exactly "approved". -/
def check_employee_access (st : BotState) (user_id : Nat) : Bool :=
  ADMIN_USERS.contains user_id ||
    (get_employee_status st.employees user_id == some "approved")

/-- Fold picking the row of maximal id (SQL `ORDER BY id DESC LIMIT 1`). -/
def latestStep (acc : Option AttRecord) (r : AttRecord) : Option AttRecord :=
  match acc with
  | none => some r
  | some a => if a.id < r.id then some r else some a

/-- `get_today_attendance(user_id, date_str)`: the attendance row of
maximal id with this date and user, if any. -/
def get_today_attendance (atts : List AttRecord) (user_id : Nat)
    (date_str : String) : Option AttRecord :=
  (atts.filter (fun r => r.date == date_str && r.userId == user_id)).foldl
    latestStep none

/-- Second-of-day of a shift's start: `datetime.combine(now.date(),
parse_hhmm(shift[2]))` measured from midnight of the same day. -/
def shift_start_sec (sh : Shift) : Int :=
  (((parse_hhmm sh.startHHMM).1 * 60 + (parse_hhmm sh.startHHMM).2) * 60 : Nat)

/-- Outcome of `employee_check_in`, by the reply it sends. -/
inductive CheckInResult where
  | accessDenied
  | noAssignment
  | alreadyCheckedIn
  | ok (delay : Int)
deriving DecidableEq

/-- `employee_check_in(update, context)` for user `user_id` with fallback
display name `tgName` at instant (`date_str`, `nowSec`).  Returns `none`
only when the stored shift id is missing from the catalog (the Python
would crash indexing `None`); otherwise the result, the new state, and
the recipients of the manager notification. -/
def employee_check_in (st : BotState) (user_id : Nat) (tgName : String)
    (date_str : String) (nowSec : Nat) :
    Option (CheckInResult × BotState × List Nat) :=
  if ¬ check_employee_access st user_id then some (.accessDenied, st, [])
  else
    match get_employee_shift st.employeeShifts user_id with
    | none => some (.noAssignment, st, [])
    | some shift_id =>
      if shift_id = 0 then some (.noAssignment, st, [])
      else
        let existing := get_today_attendance st.attendance user_id date_str
        if (existing.map (fun r => r.checkInTime.isSome)).getD false then
          some (.alreadyCheckedIn, st, [])
        else
          match get_shift_by_id shift_id with
          | none => none
          | some sh =>
            let delay : Int := max 0 (((nowSec : Int) - shift_start_sec sh).fdiv 60)
            let newRec : AttRecord :=
              ⟨st.nextAttId, date_str, user_id,
               pyOr (get_employee_full_name st.employees user_id) tgName,
               shift_id, some nowSec, none, delay⟩
            some (.ok delay,
              { st with attendance := st.attendance ++ [newRec],
                        nextAttId := st.nextAttId + 1 },
              REAL_MANAGERS)

/-- Outcome of `employee_check_out`. -/
inductive CheckOutResult where
  | accessDenied
  | notCheckedIn
  | alreadyCheckedOut
  | ok
deriving DecidableEq

/-- `employee_check_out(update, context)`: result, new state, and the
recipients of the manager notification. -/
def employee_check_out (st : BotState) (user_id : Nat) (date_str : String)
    (nowSec : Nat) : CheckOutResult × BotState × List Nat :=
  if ¬ check_employee_access st user_id then (.accessDenied, st, [])
  else
    match get_today_attendance st.attendance user_id date_str with
    | none => (.notCheckedIn, st, [])
    | some row =>
      if row.checkInTime.isNone then (.notCheckedIn, st, [])
      else if row.checkOutTime.isSome then (.alreadyCheckedOut, st, [])
      else
        (.ok,
         { st with attendance := st.attendance.map (fun r =>
             if r.id = row.id then { r with checkOutTime := some nowSec } else r) },
         REAL_MANAGERS)

/-- Outcome of the registration dialog (`register_employee_start` followed,
when the dialog continues, by `register_employee_save`). -/
inductive RegisterResult where
  | adminNoReg
  | alreadyApproved
  | registeredPending
deriving DecidableEq

/-- The registration flow: `register_employee_start` ends the conversation
for admins and for employees whose status is "approved"; otherwise
`register_employee_save` upserts the employee with status "pending". -/
def register_employee (st : BotState) (user_id : Nat)
    (username full_name : String) : RegisterResult × BotState :=
  if ADMIN_USERS.contains user_id then (.adminNoReg, st)
  else if get_employee_status st.employees user_id == some "approved" then
    (.alreadyApproved, st)
  else
    (.registeredPending,
     { st with employees := upsert_employee st.employees user_id username full_name "pending" })

/-- The user-visible edit made by `approve_reject_callback`. -/
inductive ApproveMsg where
  | adminOnly
  | approvedMsg
  | rejectedMsg
deriving DecidableEq

/-- `approve_reject_callback` for callback data `action:emp_id`;
`approveAction = true` for "approve", `false` for "reject".  Returns the
message shown, the new state, and the recipient of the direct notice
(`none` when no send is attempted). -/
def approve_reject_callback (st : BotState) (actingId emp_id : Nat)
    (approveAction : Bool) : ApproveMsg × BotState × Option Nat :=
  if ¬ ADMIN_USERS.contains actingId then (.adminOnly, st, none)
  else if approveAction then
    (.approvedMsg,
     { st with employees := set_employee_status st.employees emp_id "approved" },
     some emp_id)
  else
    (.rejectedMsg,
     { st with employees := set_employee_status st.employees emp_id "rejected" },
     some emp_id)

/-- `leave_save`: inserts a LeaveRequest with `date = get_today_str()` and
status "pending"; returns the new state, the new request id
(`c.lastrowid`), and the admins who are offered the approve/reject
buttons. -/
def leave_save (st : BotState) (user_id : Nat) (tgName reason : String)
    (todayStr : String) : BotState × Nat × List Nat :=
  let req : LeaveRequest :=
    ⟨st.nextLeaveId, todayStr, user_id,
     pyOr (get_employee_full_name st.employees user_id) tgName, reason, "pending"⟩
  ({ st with leaveRequests := st.leaveRequests ++ [req],
             nextLeaveId := st.nextLeaveId + 1 },
   st.nextLeaveId, ADMIN_USERS)

/-- Outcome of `leave_callback`, by the message edited into the chat. -/
inductive LeaveResolveResult where
  | accessDenied
  | notFound
  | resolved
deriving DecidableEq

/-- `leave_callback` for callback data `action:req_id`;
`approveAction = true` for "leave_approve", `false` for "leave_reject".
Returns the result, the new state, and the employee the outcome notice is
sent to (`none` when no send is attempted). -/
def leave_callback (st : BotState) (actingId req_id : Nat)
    (approveAction : Bool) : LeaveResolveResult × BotState × Option Nat :=
  if ¬ ADMIN_USERS.contains actingId then (.accessDenied, st, none)
  else
    match st.leaveRequests.find? (fun r => r.id == req_id) with
    | none => (.notFound, st, none)
    | some row =>
      let newStatus := if approveAction then "approved" else "rejected"
      (.resolved,
       { st with leaveRequests := st.leaveRequests.map (fun r =>
           if r.id = req_id then { r with status := newStatus } else r) },
       some row.userId)

/-- `SELECT user_id FROM employee_shifts WHERE shift_id=?` in
`job_late_alert`. -/
def assigned_to (shifts : List (Nat × Nat)) (shift_id : Nat) : List Nat :=
  (shifts.filter (fun p => p.2 == shift_id)).map (·.1)

/-- `SELECT user_id FROM attendance WHERE date=? AND shift_id=? AND
check_in_time IS NOT NULL` in `job_late_alert`. -/
def checked_in_today (atts : List AttRecord) (date_str : String)
    (shift_id : Nat) : List Nat :=
  (atts.filter (fun r =>
    r.date == date_str && r.shiftId == shift_id && r.checkInTime.isSome)).map
    (·.userId)

/-- `late_people = [uid for uid in assigned if uid not in checked]`. -/
def late_people (st : BotState) (date_str : String) (shift_id : Nat) : List Nat :=
  (assigned_to st.employeeShifts shift_id).filter
    (fun uid => ¬ (checked_in_today st.attendance date_str shift_id).contains uid)

/-- Recipients of the late alert for one shift once its time window has
triggered: `if late_people: await notify_real_managers(...)`. -/
def job_late_alert_recipients (st : BotState) (date_str : String)
    (shift_id : Nat) : List Nat :=
  if late_people st date_str shift_id = [] then [] else REAL_MANAGERS

/-- `SELECT full_name, reason, status FROM leave_requests WHERE date=?` —
the leave section of `manager_report_today` and `job_nightly_report`
(their `ORDER BY created_at DESC` affects order only, not membership). -/
def report_leaves (st : BotState) (date_str : String) : List LeaveRequest :=
  st.leaveRequests.filter (fun r => r.date == date_str)

/-! ### Concrete sample states (used by witnesses and counterexamples) -/

/-- A sample approved employee. -/
def empAli : Employee := ⟨5001, "ali", "Ali Rezaei", "approved"⟩

/-- Ali approved and assigned shift 1; empty ledgers. -/
def stBase : BotState := ⟨[empAli], [(5001, 1)], [], [], 1, 1⟩

/-- `stBase` after Ali checks in at 08:12:00 (29520 s) on 2025-01-06. -/
def stAfterCheckIn : BotState :=
  { stBase with
    attendance := [⟨1, "2025-01-06", 5001, "Ali Rezaei", 1, some 29520, none, 12⟩],
    nextAttId := 2 }

/-- `stAfterCheckIn` after Ali checks out at 16:00:00 (57600 s). -/
def stCheckedOut : BotState :=
  { stBase with
    attendance := [⟨1, "2025-01-06", 5001, "Ali Rezaei", 1, some 29520, some 57600, 12⟩],
    nextAttId := 2 }

/-- Ali approved but with no shift assignment. -/
def stNoShift : BotState := ⟨[empAli], [], [], [], 1, 1⟩

/-- Completely empty database. -/
def stEmpty : BotState := ⟨[], [], [], [], 1, 1⟩

/-- A rejected employee, for re-registration. -/
def stRejected : BotState := ⟨[⟨5002, "sara", "Sara Karimi", "rejected"⟩], [], [], [], 1, 1⟩

/-- One pending leave request by Ali. -/
def stLeave : BotState :=
  ⟨[empAli], [], [], [⟨1, "2025-01-06", 5001, "Ali Rezaei", "family matter", "pending"⟩], 1, 2⟩

/-- `stLeave` with Ali's request approved. -/
def stLeaveApproved : BotState :=
  { stLeave with
    leaveRequests := [⟨1, "2025-01-06", 5001, "Ali Rezaei", "family matter", "approved"⟩] }

/-- Scenario D: employees 6001 and 6002 are assigned shift 1; 6002 has
checked in today, 6001 has not. -/
def stLate : BotState :=
  ⟨[⟨6001, "", "Farid", "approved"⟩, ⟨6002, "", "Golnaz", "approved"⟩],
   [(6001, 1), (6002, 1)],
   [⟨1, "2025-01-06", 6002, "Golnaz", 1, some 28920, none, 2⟩],
   [], 2, 1⟩

/-! ### Helper lemmas -/

theorem map_eq_self_of_mem {α : Type} (l : List α) (f : α → α)
    (h : ∀ a ∈ l, f a = a) : l.map f = l := by
  induction l with
  | nil => rfl
  | cons x xs ih =>
    simp only [List.map_cons, h x (List.mem_cons_self x xs),
      ih (fun a ha => h a (List.mem_cons_of_mem x ha)), List.cons.injEq, and_self]

theorem find?_set_shift_self (s : List (Nat × Nat)) (uid sid : Nat) :
    (set_employee_shift s uid sid).find? (fun p => p.1 == uid) = some (uid, sid) := by
  unfold set_employee_shift
  by_cases hany : s.any (fun p => p.1 == uid)
  · rw [if_pos hany, List.find?_map]
    have hpres : ((fun p : Nat × Nat => p.1 == uid) ∘
        (fun p : Nat × Nat => if p.1 = uid then (uid, sid) else p)) =
        (fun p : Nat × Nat => p.1 == uid) := by
      funext x
      by_cases hx : x.1 = uid <;> simp [hx]
    rw [hpres]
    have hsome : (s.find? (fun p : Nat × Nat => p.1 == uid)).isSome := by
      rw [List.find?_isSome]
      exact List.any_eq_true.mp hany
    rcases Option.isSome_iff_exists.mp hsome with ⟨y, hy⟩
    have hyp := List.find?_some (p := fun q : Nat × Nat => q.1 == uid) hy
    rw [hy]
    have hy1 : y.1 = uid := by simpa using hyp
    simp [hy1]
  · rw [if_neg hany, List.find?_append]
    have hnone : s.find? (fun p : Nat × Nat => p.1 == uid) = none := by
      rw [List.find?_eq_none]
      intro x hx hc
      exact hany (List.any_eq_true.mpr ⟨x, hx, hc⟩)
    rw [hnone]
    simp [List.find?]

theorem find?_set_shift_other (s : List (Nat × Nat)) (uid uid' sid : Nat)
    (h : uid' ≠ uid) :
    (set_employee_shift s uid sid).find? (fun p => p.1 == uid') =
      s.find? (fun p => p.1 == uid') := by
  unfold set_employee_shift
  by_cases hany : s.any (fun p => p.1 == uid)
  · rw [if_pos hany, List.find?_map]
    have hpres : ((fun p : Nat × Nat => p.1 == uid') ∘
        (fun p : Nat × Nat => if p.1 = uid then (uid, sid) else p)) =
        (fun p : Nat × Nat => p.1 == uid') := by
      funext x
      by_cases hx : x.1 = uid <;> simp [hx]
    rw [hpres]
    cases hf : s.find? (fun p : Nat × Nat => p.1 == uid') with
    | none => simp
    | some y =>
      have hyp := List.find?_some (p := fun q : Nat × Nat => q.1 == uid') hf
      have hy1 : y.1 = uid' := by simpa using hyp
      have hyne : ¬ y.1 = uid := by omega
      simp [hyne]
  · rw [if_neg hany, List.find?_append]
    have hne : ((uid, sid).1 == uid') = false := by simpa using fun hc => h hc.symm
    cases hf : s.find? (fun p => p.1 == uid') <;> simp [List.find?, hne]

theorem foldl_latestStep_eq_some (l : List AttRecord) (acc : Option AttRecord)
    (r : AttRecord) (h : l.foldl latestStep acc = some r) : r ∈ l ∨ acc = some r := by
  induction l generalizing acc with
  | nil => exact Or.inr h
  | cons x xs ih =>
    rcases ih (latestStep acc x) h with hmem | hacc
    · exact Or.inl (List.mem_cons_of_mem _ hmem)
    · cases acc with
      | none =>
        left
        simp only [latestStep] at hacc
        have : x = r := by injection hacc
        simp [this]
      | some a =>
        simp only [latestStep] at hacc
        by_cases hlt : a.id < x.id
        · rw [if_pos hlt] at hacc
          left
          have : x = r := by injection hacc
          simp [this]
        · rw [if_neg hlt] at hacc
          exact Or.inr hacc

theorem get_today_attendance_append_max (atts : List AttRecord) (x : AttRecord)
    (uid : Nat) (d : String) (hd : x.date = d) (hu : x.userId = uid)
    (hmax : ∀ r ∈ atts, r.id < x.id) :
    get_today_attendance (atts ++ [x]) uid d = some x := by
  unfold get_today_attendance
  rw [List.filter_append]
  have hx : (x.date == d && x.userId == uid) = true := by simp [hd, hu]
  have hfx : List.filter (fun r => r.date == d && r.userId == uid) [x] = [x] := by
    simp [List.filter, hx]
  rw [hfx, List.foldl_append]
  cases hacc : (atts.filter (fun r => r.date == d && r.userId == uid)).foldl
      latestStep none with
  | none => simp [latestStep]
  | some a =>
    rcases foldl_latestStep_eq_some _ _ _ hacc with hmem | hcontra
    · have ha : a ∈ atts := List.mem_of_mem_filter hmem
      have : a.id < x.id := hmax a ha
      simp [latestStep, this]
    · exact absurd hcontra (by simp)

theorem foldl_latestStep_map (l : List AttRecord) (f : AttRecord → AttRecord)
    (hid : ∀ r, (f r).id = r.id) :
    ∀ acc : Option AttRecord,
      (l.map f).foldl latestStep (acc.map f) = (l.foldl latestStep acc).map f := by
  induction l with
  | nil => intro acc; rfl
  | cons x xs ih =>
    intro acc
    simp only [List.map_cons, List.foldl_cons]
    have hstep : latestStep (acc.map f) (f x) = (latestStep acc x).map f := by
      cases acc with
      | none => rfl
      | some a =>
        unfold latestStep
        simp only [Option.map]
        rw [hid x, hid a]
        by_cases h : a.id < x.id <;> simp [h]
    rw [hstep, ← ih (latestStep acc x)]

theorem get_today_attendance_map (atts : List AttRecord) (f : AttRecord → AttRecord)
    (uid : Nat) (d : String) (hid : ∀ r, (f r).id = r.id)
    (hdate : ∀ r, (f r).date = r.date) (huid : ∀ r, (f r).userId = r.userId) :
    get_today_attendance (atts.map f) uid d =
      (get_today_attendance atts uid d).map f := by
  unfold get_today_attendance
  rw [List.filter_map]
  have hq : ((fun r : AttRecord => r.date == d && r.userId == uid) ∘ f) =
      (fun r : AttRecord => r.date == d && r.userId == uid) := by
    funext r
    simp [hdate r, huid r]
  rw [hq]
  exact foldl_latestStep_map _ f hid none

theorem find?_upsert_self (es : List Employee) (uid : Nat) (un fn stt : String) :
    (upsert_employee es uid un fn stt).find? (fun e => e.userId == uid) =
      some ⟨uid, un, fn, stt⟩ := by
  unfold upsert_employee
  by_cases hany : es.any (fun e => e.userId == uid)
  · rw [if_pos hany, List.find?_map]
    have hpres : ((fun e : Employee => e.userId == uid) ∘
        (fun e : Employee => if e.userId = uid then
          { e with username := un, fullName := fn, status := stt } else e)) =
        (fun e : Employee => e.userId == uid) := by
      funext x
      by_cases hx : x.userId = uid <;> simp [hx]
    rw [hpres]
    have hsome : (es.find? (fun e : Employee => e.userId == uid)).isSome := by
      rw [List.find?_isSome]
      exact List.any_eq_true.mp hany
    rcases Option.isSome_iff_exists.mp hsome with ⟨y, hy⟩
    have hyp := List.find?_some (p := fun q : Employee => q.userId == uid) hy
    rw [hy]
    cases y with
    | mk a b c dd =>
      have hy1 : a = uid := by simpa using hyp
      simp [hy1]
  · rw [if_neg hany, List.find?_append]
    have hnone : es.find? (fun e : Employee => e.userId == uid) = none := by
      rw [List.find?_eq_none]
      intro x hx hc
      exact hany (List.any_eq_true.mpr ⟨x, hx, hc⟩)
    rw [hnone]
    simp [List.find?]

theorem find?_map_invariant {α : Type} (l : List α) (f : α → α) (q : α → Bool)
    (hq : ∀ x, q (f x) = q x) : (l.map f).find? q = (l.find? q).map f := by
  rw [List.find?_map]
  have heq : (q ∘ f) = q := funext hq
  rw [heq]

theorem employee_check_in_ok_inversion (st : BotState) (user_id : Nat)
    (tgName date_str : String) (nowSec : Nat) (dl : Int) (st' : BotState)
    (ns : List Nat)
    (h : employee_check_in st user_id tgName date_str nowSec =
      some (.ok dl, st', ns)) :
    check_employee_access st user_id = true ∧
    ∃ sid sh, get_employee_shift st.employeeShifts user_id = some sid ∧
      ¬ sid = 0 ∧ get_shift_by_id sid = some sh ∧
      ((get_today_attendance st.attendance user_id date_str).map
        (fun r => r.checkInTime.isSome)).getD false = false ∧
      dl = max 0 (((nowSec : Int) - shift_start_sec sh).fdiv 60) ∧
      st' = { st with
              attendance := st.attendance ++
                [⟨st.nextAttId, date_str, user_id,
                  pyOr (get_employee_full_name st.employees user_id) tgName,
                  sid, some nowSec, none, dl⟩],
              nextAttId := st.nextAttId + 1 } ∧
      ns = REAL_MANAGERS := by
  unfold employee_check_in at h
  by_cases hacc : check_employee_access st user_id = true
  · rw [if_neg (by simp [hacc])] at h
    cases hsid : get_employee_shift st.employeeShifts user_id with
    | none => rw [hsid] at h; simp at h
    | some sid =>
      rw [hsid] at h
      simp only at h
      by_cases hz : sid = 0
      · rw [if_pos hz] at h; simp at h
      · rw [if_neg hz] at h
        by_cases hex : ((get_today_attendance st.attendance user_id date_str).map
            (fun r => r.checkInTime.isSome)).getD false = true
        · rw [if_pos hex] at h; simp at h
        · rw [if_neg hex] at h
          cases hsh : get_shift_by_id sid with
          | none => rw [hsh] at h; simp at h
          | some sh =>
            rw [hsh] at h
            simp only [Option.some.injEq, Prod.mk.injEq,
              CheckInResult.ok.injEq] at h
            obtain ⟨hdl, hst, hns⟩ := h
            subst hdl
            exact ⟨hacc, sid, sh, rfl, hz, hsh, by simpa using hex, rfl,
              hst.symm, hns.symm⟩
  · rw [if_pos (by simp [hacc])] at h
    simp at h

/-! ### Claim theorems -/

/-- **C1 (counterexample).** The claim says an assignment made for one
date does not determine `getAssignedShift` for a different date.  In the
code the assignment store is keyed by employee only: after assigning
employee 1 shift 2 "for" 2025-01-06, the lookup for the different date
2025-01-07 already returns `some 2`, where the spec-modelled dated store
returns `none`. -/
theorem c1_dated_assignment_counterexample :
    getAssignedShift (assignShift [] 1 "2025-01-06" 2) 1 "2025-01-07" = some 2 ∧
    "2025-01-06" ≠ "2025-01-07" ∧
    getAssignedShiftSpec (assignShiftSpec [] 1 "2025-01-06" 2) 1 "2025-01-07" = none := by
  refine ⟨by decide, by decide, by decide⟩

/-- **C1 (amended).** Shift assignments are unique per employeeId (the
`employee_shifts` table has no date column): `set_employee_shift` upserts
the assignment for the employee, assigning again overwrites the prior
value (last-write-wins), other employees are unaffected, and the dated
read returns the same stored shift for every date. -/
theorem c1_assignment_keyed_by_employee (shifts : List (Nat × Nat))
    (uid uid' sid sid' : Nat) (d d' : String) :
    get_employee_shift (set_employee_shift shifts uid sid) uid = some sid ∧
    get_employee_shift
      (set_employee_shift (set_employee_shift shifts uid sid) uid sid') uid =
      some sid' ∧
    (uid' ≠ uid →
      get_employee_shift (set_employee_shift shifts uid sid) uid' =
        get_employee_shift shifts uid') ∧
    getAssignedShift shifts uid d = getAssignedShift shifts uid d' := by
  refine ⟨?_, ?_, ?_, rfl⟩
  · unfold get_employee_shift
    rw [find?_set_shift_self]
    rfl
  · unfold get_employee_shift
    rw [find?_set_shift_self]
    rfl
  · intro h
    unfold get_employee_shift
    rw [find?_set_shift_other _ _ _ _ h]

/-- Witness for **C1 (amended)** at a concrete store. -/
theorem c1_assignment_keyed_by_employee_witness :
    (5 : Nat) ≠ 7 ∧
    get_employee_shift (set_employee_shift [(7, 3)] 7 1) 5 =
      get_employee_shift [(7, 3)] 5 :=
  ⟨by decide,
   (c1_assignment_keyed_by_employee [(7, 3)] 7 5 1 2 "2025-01-06" "2025-01-07").2.2.1
     (by decide)⟩

/-- **C2.** For every successful check-in, the stored `delayMinutes`
equals `max 0 ⌊(now − shiftStart) / 60 s⌋`, is never negative, and is `0`
whenever `now ≤ shiftStart`; the new attendance row stores exactly that
delay with `checkInTime = now`. -/
theorem c2_checkin_delay_formula (st : BotState) (user_id : Nat)
    (tgName date_str : String) (nowSec : Nat) (dl : Int) (st' : BotState)
    (ns : List Nat) (sid : Nat) (sh : Shift)
    (hsid : get_employee_shift st.employeeShifts user_id = some sid)
    (hsh : get_shift_by_id sid = some sh)
    (h : employee_check_in st user_id tgName date_str nowSec =
      some (.ok dl, st', ns)) :
    dl = max 0 (((nowSec : Int) - shift_start_sec sh).fdiv 60) ∧
    0 ≤ dl ∧
    ((nowSec : Int) ≤ shift_start_sec sh → dl = 0) ∧
    st'.attendance = st.attendance ++
      [⟨st.nextAttId, date_str, user_id,
        pyOr (get_employee_full_name st.employees user_id) tgName,
        sid, some nowSec, none, dl⟩] := by
  obtain ⟨-, sid', sh', hsid', hz, hsh', hex, hdl, hst, hns⟩ :=
    employee_check_in_ok_inversion _ _ _ _ _ _ _ _ h
  rw [hsid] at hsid'
  injection hsid' with hsideq
  subst hsideq
  rw [hsh] at hsh'
  injection hsh' with hsheq
  subst hsheq
  have hnn : (0 : Int) ≤ dl := by
    rw [hdl]
    exact le_max_left 0 _
  refine ⟨hdl, hnn, ?_, by rw [hst]⟩
  intro hle
  have h60 : ((nowSec : Int) - shift_start_sec sh).fdiv 60 ≤ 0 := by
    rw [Int.fdiv_eq_ediv _ (by norm_num)]
    omega
  rw [hdl]
  exact max_eq_left h60

/-- Witness for **C2**: Ali, assigned shift 1 (start 08:00), checks in at
08:12:00 → stored delay 12. -/
theorem c2_checkin_delay_formula_witness :
    (12 : Int) = max 0 (((29520 : Int) -
      shift_start_sec ⟨1, "شیفت 1", "08:00", "16:00"⟩).fdiv 60) ∧
    (0 : Int) ≤ 12 ∧
    ((29520 : Int) ≤ shift_start_sec ⟨1, "شیفت 1", "08:00", "16:00"⟩ →
      (12 : Int) = 0) ∧
    stAfterCheckIn.attendance = stBase.attendance ++
      [⟨stBase.nextAttId, "2025-01-06", 5001,
        pyOr (get_employee_full_name stBase.employees 5001) "Ali",
        1, some 29520, none, 12⟩] :=
  c2_checkin_delay_formula stBase 5001 "Ali" "2025-01-06" 29520 12
    stAfterCheckIn REAL_MANAGERS 1 ⟨1, "شیفت 1", "08:00", "16:00"⟩
    (by decide) (by decide) (by decide)

/-- **C5.** An approved (or privileged) employee with no assignment gets
`InvalidState` ("no assignment") on check-in, and the state — in
particular the attendance ledger — is returned unchanged. -/
theorem c5_checkin_without_assignment_fails (st : BotState) (user_id : Nat)
    (tgName date_str : String) (nowSec : Nat)
    (hacc : check_employee_access st user_id = true)
    (hna : get_employee_shift st.employeeShifts user_id = none) :
    employee_check_in st user_id tgName date_str nowSec =
      some (.noAssignment, st, []) := by
  unfold employee_check_in
  rw [if_neg (by simp [hacc]), hna]

/-- Witness for **C5**: Ali approved, no shift row. -/
theorem c5_checkin_without_assignment_fails_witness :
    check_employee_access stNoShift 5001 = true ∧
    get_employee_shift stNoShift.employeeShifts 5001 = none ∧
    employee_check_in stNoShift 5001 "Ali" "2025-01-06" 29520 =
      some (.noAssignment, stNoShift, []) :=
  ⟨by decide, by decide,
   c5_checkin_without_assignment_fails stNoShift 5001 "Ali" "2025-01-06" 29520
     (by decide) (by decide)⟩

/-- **C3.** After a successful check-in for (employee, date), a second
check-in attempt on that date (at any later instant, whatever display
name) replies `InvalidState` ("already checked in") and returns the state
unaltered: no second attendance row, the original row untouched. -/
theorem c3_second_checkin_rejected (st : BotState) (user_id : Nat)
    (tg1 tg2 date_str : String) (n1 n2 : Nat) (dl : Int) (st1 : BotState)
    (ns : List Nat)
    (hwf : ∀ r ∈ st.attendance, r.id < st.nextAttId)
    (h : employee_check_in st user_id tg1 date_str n1 = some (.ok dl, st1, ns)) :
    employee_check_in st1 user_id tg2 date_str n2 =
      some (.alreadyCheckedIn, st1, []) := by
  obtain ⟨hacc, sid, sh, hsid, hz, hsh, hex, hdl, hst, hns⟩ :=
    employee_check_in_ok_inversion _ _ _ _ _ _ _ _ h
  subst hst
  have hacc1 : check_employee_access
      { st with
        attendance := st.attendance ++
          [⟨st.nextAttId, date_str, user_id,
            pyOr (get_employee_full_name st.employees user_id) tg1,
            sid, some n1, none, dl⟩],
        nextAttId := st.nextAttId + 1 } user_id = true := hacc
  have hsid1 : get_employee_shift
      ({ st with
        attendance := st.attendance ++
          [⟨st.nextAttId, date_str, user_id,
            pyOr (get_employee_full_name st.employees user_id) tg1,
            sid, some n1, none, dl⟩],
        nextAttId := st.nextAttId + 1 } : BotState).employeeShifts user_id =
      some sid := hsid
  have hnew : get_today_attendance
      (st.attendance ++
        [⟨st.nextAttId, date_str, user_id,
          pyOr (get_employee_full_name st.employees user_id) tg1,
          sid, some n1, none, dl⟩]) user_id date_str =
      some ⟨st.nextAttId, date_str, user_id,
        pyOr (get_employee_full_name st.employees user_id) tg1,
        sid, some n1, none, dl⟩ :=
    get_today_attendance_append_max _ _ _ _ rfl rfl hwf
  unfold employee_check_in
  rw [if_neg (by simp [hacc1])]
  rw [hsid1]
  simp only
  rw [if_neg hz]
  rw [hnew]
  simp

/-- Witness for **C3**: Ali checks in successfully at 08:12:00; his
second attempt the same day is rejected with the state unchanged. -/
theorem c3_second_checkin_rejected_witness :
    (∀ r ∈ stBase.attendance, r.id < stBase.nextAttId) ∧
    employee_check_in stBase 5001 "Ali" "2025-01-06" 29520 =
      some (.ok 12, stAfterCheckIn, REAL_MANAGERS) ∧
    employee_check_in stAfterCheckIn 5001 "Ali" "2025-01-06" 30000 =
      some (.alreadyCheckedIn, stAfterCheckIn, []) :=
  ⟨by decide, by decide,
   c3_second_checkin_rejected stBase 5001 "Ali" "Ali" "2025-01-06" 29520 30000
     12 stAfterCheckIn REAL_MANAGERS (by decide) (by decide)⟩

/-- **C4.** For an approved (or privileged) employee: check-out with no
checked-in record today fails `InvalidState` with no mutation; a
successful check-out only rewrites the existing row's `checkOutTime`
(same number of rows — never a new record); and a second check-out after
it fails `InvalidState` with no mutation. -/
theorem c4_checkout_state_machine (st : BotState) (user_id : Nat)
    (date_str : String) (n n2 : Nat)
    (hacc : check_employee_access st user_id = true) :
    (get_today_attendance st.attendance user_id date_str = none →
      employee_check_out st user_id date_str n = (.notCheckedIn, st, [])) ∧
    (∀ row, get_today_attendance st.attendance user_id date_str = some row →
      row.checkInTime = none →
      employee_check_out st user_id date_str n = (.notCheckedIn, st, [])) ∧
    (∀ row, get_today_attendance st.attendance user_id date_str = some row →
      row.checkInTime.isSome = true → row.checkOutTime = none →
      employee_check_out st user_id date_str n =
        (.ok,
         { st with attendance := st.attendance.map (fun r =>
             if r.id = row.id then { r with checkOutTime := some n } else r) },
         REAL_MANAGERS) ∧
      (st.attendance.map (fun r =>
        if r.id = row.id then { r with checkOutTime := some n } else r)).length =
        st.attendance.length ∧
      employee_check_out
        { st with attendance := st.attendance.map (fun r =>
            if r.id = row.id then { r with checkOutTime := some n } else r) }
        user_id date_str n2 =
        (.alreadyCheckedOut,
         { st with attendance := st.attendance.map (fun r =>
             if r.id = row.id then { r with checkOutTime := some n } else r) },
         [])) := by
  refine ⟨?_, ?_, ?_⟩
  · intro hnone
    unfold employee_check_out
    rw [if_neg (by simp [hacc]), hnone]
  · intro row hrow hci
    unfold employee_check_out
    rw [if_neg (by simp [hacc]), hrow]
    simp only
    rw [if_pos (by simp [hci])]
  · intro row hrow hci hco
    have hcin : row.checkInTime.isNone = false := by
      cases hcit : row.checkInTime <;> simp_all
    have hf_id : ∀ r : AttRecord,
        ((fun r : AttRecord =>
          if r.id = row.id then { r with checkOutTime := some n } else r) r).id =
        r.id := by
      intro r
      by_cases hr : r.id = row.id <;> simp [hr]
    have hf_date : ∀ r : AttRecord,
        ((fun r : AttRecord =>
          if r.id = row.id then { r with checkOutTime := some n } else r) r).date =
        r.date := by
      intro r
      by_cases hr : r.id = row.id <;> simp [hr]
    have hf_uid : ∀ r : AttRecord,
        ((fun r : AttRecord =>
          if r.id = row.id then { r with checkOutTime := some n } else r) r).userId =
        r.userId := by
      intro r
      by_cases hr : r.id = row.id <;> simp [hr]
    have hmap := get_today_attendance_map st.attendance
      (fun r : AttRecord =>
        if r.id = row.id then { r with checkOutTime := some n } else r)
      user_id date_str hf_id hf_date hf_uid
    refine ⟨?_, by simp, ?_⟩
    · unfold employee_check_out
      rw [if_neg (by simp [hacc]), hrow]
      simp only
      rw [if_neg (by simp [hcin]), if_neg (by simp [hco])]
    · have haccA : check_employee_access
        { st with attendance := st.attendance.map (fun r =>
            if r.id = row.id then { r with checkOutTime := some n } else r) }
        user_id = true := hacc
      unfold employee_check_out
      rw [if_neg (by simp [haccA])]
      simp only
      rw [hmap, hrow]
      simp [hcin]

/-- Witness for **C4**: Ali checked in at 08:12, checks out at 16:00 (the
row is rewritten in place, count unchanged); a second check-out at
16:06:40 is rejected with no mutation. -/
theorem c4_checkout_state_machine_witness :
    employee_check_out stAfterCheckIn 5001 "2025-01-06" 57600 =
      (.ok, stCheckedOut, REAL_MANAGERS) ∧
    stCheckedOut.attendance.length = stAfterCheckIn.attendance.length ∧
    employee_check_out stCheckedOut 5001 "2025-01-06" 58000 =
      (.alreadyCheckedOut, stCheckedOut, []) :=
  (c4_checkout_state_machine stAfterCheckIn 5001 "2025-01-06" 57600 58000
    (by decide)).2.2
    ⟨1, "2025-01-06", 5001, "Ali Rezaei", 1, some 29520, none, 12⟩
    (by decide) (by decide) (by decide)

/-- **C6.** Leave resolution: a non-privileged actor gets `AccessDenied`
and nothing changes; a privileged actor with an unknown request id gets
`NotFound` and nothing changes; otherwise the request's status is set to
the decision and the requesting employee is the recipient of the outcome
notice. -/
theorem c6_leave_resolution (st : BotState) (actingId req_id : Nat) (b : Bool) :
    (¬ ADMIN_USERS.contains actingId = true →
      leave_callback st actingId req_id b = (.accessDenied, st, none)) ∧
    (ADMIN_USERS.contains actingId = true →
      st.leaveRequests.find? (fun r => r.id == req_id) = none →
      leave_callback st actingId req_id b = (.notFound, st, none)) ∧
    (∀ row, ADMIN_USERS.contains actingId = true →
      st.leaveRequests.find? (fun r => r.id == req_id) = some row →
      leave_callback st actingId req_id b =
        (.resolved,
         { st with leaveRequests := st.leaveRequests.map (fun r =>
             if r.id = req_id then
               { r with status := if b then "approved" else "rejected" } else r) },
         some row.userId) ∧
      (st.leaveRequests.map (fun r =>
          if r.id = req_id then
            { r with status := if b then "approved" else "rejected" } else r)).find?
          (fun r => r.id == req_id) =
        some { row with status := if b then "approved" else "rejected" }) := by
  refine ⟨?_, ?_, ?_⟩
  · intro hnadm
    unfold leave_callback
    rw [if_pos hnadm]
  · intro hadm hnone
    unfold leave_callback
    rw [if_neg (by simpa using hadm), hnone]
  · intro row hadm hrow
    have hqrow := List.find?_some (p := fun r : LeaveRequest => r.id == req_id) hrow
    have hrid : row.id = req_id := by simpa using hqrow
    constructor
    · unfold leave_callback
      rw [if_neg (by simpa using hadm), hrow]
    · rw [find?_map_invariant]
      · rw [hrow]
        simp only [Option.map]
        rw [if_pos hrid]
      · intro x
        by_cases hx : x.id = req_id <;> simp [hx]

/-- Witness for **C6**: a non-admin cannot resolve; an admin resolving an
unknown id gets NotFound; an admin approving request 1 sets its status
and the notice goes to employee 5001. -/
theorem c6_leave_resolution_witness :
    leave_callback stLeave 5 1 true = (.accessDenied, stLeave, none) ∧
    leave_callback stLeave 97965212 99 true = (.notFound, stLeave, none) ∧
    leave_callback stLeave 97965212 1 true = (.resolved, stLeaveApproved, some 5001) :=
  ⟨(c6_leave_resolution stLeave 5 1 true).1 (by decide),
   (c6_leave_resolution stLeave 97965212 99 true).2.1 (by decide) (by decide),
   ((c6_leave_resolution stLeave 97965212 1 true).2.2
     ⟨1, "2025-01-06", 5001, "Ali Rezaei", "family matter", "pending"⟩
     (by decide) (by decide)).1⟩

/-- **C7 (counterexample).** A privileged actor approves employee id 42
which has no Employee record: the code does NOT fail with NotFound — it
reports success ("approved") and attempts the welcome notice to 42. -/
theorem c7_approve_nonexistent_counterexample :
    stEmpty.employees.find? (fun e => e.userId == 42) = none ∧
    approve_reject_callback stEmpty 6017492841 42 true =
      (.approvedMsg, stEmpty, some 42) :=
  ⟨by decide, by decide⟩

/-- **C7 (amended).** When a privileged actor approves/rejects an
employeeId with no Employee record, the UPDATE matches no row: the
registry is unchanged (no record created), yet the callback reports
success and still attempts the notification to that id — there is no
NotFound path for employees. -/
theorem c7_approve_nonexistent_silent_success (st : BotState)
    (actingId emp_id : Nat) (b : Bool)
    (hadm : ADMIN_USERS.contains actingId = true)
    (habs : ∀ e ∈ st.employees, e.userId ≠ emp_id) :
    approve_reject_callback st actingId emp_id b =
      ((if b then .approvedMsg else .rejectedMsg), st, some emp_id) := by
  have hset : ∀ s : String,
      set_employee_status st.employees emp_id s = st.employees := by
    intro s
    unfold set_employee_status
    apply map_eq_self_of_mem
    intro e he
    rw [if_neg (habs e he)]
  unfold approve_reject_callback
  rw [if_neg (by simpa using hadm)]
  cases b <;> simp [hset]

/-- Witness for **C7 (amended)**: superuser rejects id 7 in an empty
registry — success is reported, the notice targets 7, nothing changes. -/
theorem c7_approve_nonexistent_silent_success_witness :
    ADMIN_USERS.contains 6017492841 = true ∧
    approve_reject_callback stEmpty 6017492841 7 false =
      (.rejectedMsg, stEmpty, some 7) :=
  ⟨by decide,
   c7_approve_nonexistent_silent_success stEmpty 6017492841 7 false
     (by decide) (by decide)⟩

/-- **C8 (counterexample).** Re-registration by an already-approved
employee does NOT reset the status to pending: `register_employee_start`
ends the dialog with "already approved" and the record is untouched. -/
theorem c8_reregistration_approved_counterexample :
    get_employee_status stBase.employees 5001 = some "approved" ∧
    register_employee stBase 5001 "ali" "Ali Rezaei" = (.alreadyApproved, stBase) ∧
    get_employee_status (register_employee stBase 5001 "ali" "Ali Rezaei").2.employees
      5001 = some "approved" :=
  ⟨by decide, by decide, by decide⟩

/-- **C8 (amended).** For a non-privileged employee whose current status
is NOT "approved" (pending, rejected, or absent), registering again
upserts the display fields and resets the status to pending; an approved
employee is turned away before the upsert. -/
theorem c8_reregistration_resets_to_pending (st : BotState) (user_id : Nat)
    (username full_name : String)
    (hnadm : ADMIN_USERS.contains user_id = false)
    (hnap : ¬ get_employee_status st.employees user_id = some "approved") :
    register_employee st user_id username full_name =
      (.registeredPending,
       { st with employees :=
           upsert_employee st.employees user_id username full_name "pending" }) ∧
    get_employee_status
      (upsert_employee st.employees user_id username full_name "pending") user_id =
      some "pending" ∧
    get_employee_full_name
      (upsert_employee st.employees user_id username full_name "pending") user_id =
      some full_name := by
  refine ⟨?_, ?_, ?_⟩
  · unfold register_employee
    rw [if_neg (by simpa using hnadm), if_neg (by simpa using hnap)]
  · unfold get_employee_status
    rw [find?_upsert_self]
    rfl
  · unfold get_employee_full_name
    rw [find?_upsert_self]
    rfl

/-- Witness for **C8 (amended)**: rejected employee 5002 re-registers
with new display fields and ends up pending. -/
theorem c8_reregistration_resets_to_pending_witness :
    ADMIN_USERS.contains 5002 = false ∧
    register_employee stRejected 5002 "sara2" "Sara K" =
      (.registeredPending,
       { stRejected with employees :=
           upsert_employee stRejected.employees 5002 "sara2" "Sara K" "pending" }) ∧
    get_employee_status
      (upsert_employee stRejected.employees 5002 "sara2" "Sara K" "pending") 5002 =
      some "pending" ∧
    get_employee_full_name
      (upsert_employee stRejected.employees 5002 "sara2" "Sara K" "pending") 5002 =
      some "Sara K" :=
  ⟨by decide,
   (c8_reregistration_resets_to_pending stRejected 5002 "sara2" "Sara K"
     (by decide) (by decide)).1,
   (c8_reregistration_resets_to_pending stRejected 5002 "sara2" "Sara K"
     (by decide) (by decide)).2.1,
   (c8_reregistration_resets_to_pending stRejected 5002 "sara2" "Sara K"
     (by decide) (by decide)).2.2⟩

/-- **C9.** The late-alert list for a shift is exactly the set difference
assigned − checkedIn (today's attendance rows of that shift with a
check-in), and the privileged recipients are notified exactly when that
list is non-empty. -/
theorem c9_late_alert_set_difference (st : BotState) (d : String)
    (sid uid : Nat) :
    (uid ∈ late_people st d sid ↔
      ((∃ p ∈ st.employeeShifts, p.1 = uid ∧ p.2 = sid) ∧
       ¬ ∃ r ∈ st.attendance, r.userId = uid ∧ r.date = d ∧ r.shiftId = sid ∧
          r.checkInTime.isSome = true)) ∧
    (late_people st d sid = [] → job_late_alert_recipients st d sid = []) ∧
    (late_people st d sid ≠ [] →
      job_late_alert_recipients st d sid = REAL_MANAGERS) := by
  refine ⟨?_, ?_, ?_⟩
  · unfold late_people assigned_to checked_in_today
    simp only [List.mem_filter, List.mem_map, List.elem_iff, decide_eq_true_eq,
      beq_iff_eq]
    constructor
    · rintro ⟨⟨p, hp, hp1⟩, hnc⟩
      refine ⟨⟨p, hp.1, hp1, by simpa using hp.2⟩, ?_⟩
      rintro ⟨r, hr, hru, hrd, hrs, hrc⟩
      exact hnc ⟨r, ⟨hr, by simp [hrd, hrs, hrc]⟩, hru⟩
    · rintro ⟨⟨p, hp, hp1, hp2⟩, hnc⟩
      refine ⟨⟨p, ⟨hp, by simpa using hp2⟩, hp1⟩, ?_⟩
      rintro ⟨r, ⟨hr, hprop⟩, hru⟩
      simp only [Bool.and_eq_true, beq_iff_eq] at hprop
      exact hnc ⟨r, hr, hru, hprop.1.1, hprop.1.2, hprop.2⟩
  · intro h
    unfold job_late_alert_recipients
    rw [if_pos h]
  · intro h
    unfold job_late_alert_recipients
    rw [if_neg h]

/-- Witness for **C9** (Scenario D): 6001 (assigned, not checked in) is
reported; 6002 (assigned, checked in) is not; the real managers are
notified since the list is non-empty. -/
theorem c9_late_alert_set_difference_witness :
    6001 ∈ late_people stLate "2025-01-06" 1 ∧
    ¬ 6002 ∈ late_people stLate "2025-01-06" 1 ∧
    job_late_alert_recipients stLate "2025-01-06" 1 = REAL_MANAGERS :=
  ⟨(c9_late_alert_set_difference stLate "2025-01-06" 1 6001).1.mpr
     ⟨by decide, by decide⟩,
   fun hmem =>
     ((c9_late_alert_set_difference stLate "2025-01-06" 1 6002).1.mp hmem).2
       (by decide),
   (c9_late_alert_set_difference stLate "2025-01-06" 1 6001).2.2 (by decide)⟩

/-- **C10.** `leave_save` stamps the new LeaveRequest with the current
day (the employee supplies only the reason), and the daily/nightly
report's leave section for day `d` gains the new request exactly when
`d` is that creation day. -/
theorem c10_leave_request_dated_today (st : BotState) (user_id : Nat)
    (tgName reason todayStr d : String) :
    (leave_save st user_id tgName reason todayStr).1.leaveRequests =
      st.leaveRequests ++
        [⟨st.nextLeaveId, todayStr, user_id,
          pyOr (get_employee_full_name st.employees user_id) tgName, reason,
          "pending"⟩] ∧
    report_leaves (leave_save st user_id tgName reason todayStr).1 d =
      report_leaves st d ++
        (if d = todayStr then
          [⟨st.nextLeaveId, todayStr, user_id,
            pyOr (get_employee_full_name st.employees user_id) tgName, reason,
            "pending"⟩] else []) := by
  constructor
  · rfl
  · unfold report_leaves leave_save
    dsimp only
    rw [List.filter_append]
    congr 1
    by_cases hd : d = todayStr
    · subst hd
      simp
    · have hne : (todayStr == d) = false := by
        simpa using fun hc => hd hc.symm
      simp [List.filter, hne, hd]
